import Mathlib

/-!
Verification of the Zooniverse/LSST subject-generation pipeline
(`lsst_zooniverse/generator.py`, `lsst_zooniverse/client.py`).

The Python code is shallowly embedded: dictionaries become association
lists, Python iterators become explicit list cursors, exceptions become
`Except` / `Option` results, and the numpy float image values become
`Option ℚ` pixel values (`none` models NaN; infinities are not modelled,
so "finite" coincides with "not NaN").  External library effects
(`fits.open`, `matplotlib`, `f.read()`, the network call wrapped by
`network_retry`) are supplied as oracle arguments describing their
outcome, while the repository's own control flow around them is
translated line by line.
-/

namespace ZooniverseLsst

/-- One row of `diaSourcesList`: a photometry record
(`generator.py`, consumed in `_parse_obj` and `JSONLocation.generate`). -/
structure PhotRecord where
  diaSourceId : Nat
  band : String
  midpointMjdTai : ℚ
  psfFlux : ℚ
  psfFluxErr : ℚ
  deriving DecidableEq, Repr

/-- One entry of `lasairData.imageUrls`: a mapping from image labels
("Science", "Template", "Difference") to URLs, plus the `diaSourceId`
key correlating it to one detection epoch. -/
structure ImageUrlGroup where
  diaSourceId : Nat
  urls : List (String × String)
  deriving DecidableEq, Repr

/-- The payload returned by `self.lasair.object(obj_id, lasair_added=True)`
as used by `_parse_obj`: the `lasairData.imageUrls` list and the
`diaSourcesList` list. -/
structure ObjData where
  imageUrls : List ImageUrlGroup
  diaSourcesList : List PhotRecord
  deriving DecidableEq, Repr

/-- The mutable state of `LSSTSubjectGenerator` that `__next__` reads and
writes: the remaining object ids (`self.obj_ids` iterator), the current
object's remaining image-url groups (`self.obj_image_urls`; `none` models
the Python `None` before the first fetch), and the current object's
`diaSourcesList` (from which `self.obj_photometry`, a `defaultdict(list)`
keyed by `diaSourceId`, is built). -/
structure GenState where
  objIds : List Nat
  objImageUrls : Option (List ImageUrlGroup)
  objPhotometry : List PhotRecord
  deriving DecidableEq, Repr

/-- `self.obj_photometry[id]`: the `defaultdict(list)` built in `_parse_obj`
groups records by `diaSourceId` preserving insertion order, so looking up
`id` yields exactly the records with that id in original order; a missing
id yields `[]` (defaultdict behaviour). -/
def photometryFor (recs : List PhotRecord) (id : Nat) : List PhotRecord :=
  recs.filter (fun r => r.diaSourceId == id)

/-- One call of `LSSTSubjectGenerator.__next__`, with the data source
(`self.lasair.object`) supplied as `fetch`.  Returns the
(image-url group, photometry subset) pair handed to `self.generate`,
together with the successor state, or `none` when the call raises
`StopIteration` (exhaustion).  Control flow mirrors the source: if the
current group iterator is exhausted (or not yet initialised), the next
object id is fetched via `_parse_obj` and `next(self.obj_image_urls)` is
retried once, this second `next` NOT being guarded by a `try`. -/
def genNext (fetch : Nat → ObjData) (s : GenState) :
    Option ((ImageUrlGroup × List PhotRecord) × GenState) :=
  match s.objImageUrls with
  | some (g :: rest) =>
      -- `next(self.obj_image_urls)` succeeds; photometry looked up by id
      some ((g, photometryFor s.objPhotometry g.diaSourceId),
            { s with objImageUrls := some rest })
  | some [] =>
      -- StopIteration caught: `self._parse_obj(next(self.obj_ids))`
      match s.objIds with
      | [] => none      -- `next(self.obj_ids)` raises StopIteration
      | oid :: restIds =>
          match (fetch oid).imageUrls with
          | [] => none  -- unguarded `next(self.obj_image_urls)` raises
          | g :: rest =>
              some ((g, photometryFor (fetch oid).diaSourcesList g.diaSourceId),
                    ⟨restIds, some rest, (fetch oid).diaSourcesList⟩)
  | none =>
      -- first call: `else` branch, same body as the `except` branch
      match s.objIds with
      | [] => none
      | oid :: restIds =>
          match (fetch oid).imageUrls with
          | [] => none
          | g :: rest =>
              some ((g, photometryFor (fetch oid).diaSourcesList g.diaSourceId),
                    ⟨restIds, some rest, (fetch oid).diaSourcesList⟩)

/-- An upper bound on the number of `__next__` calls before exhaustion:
each remaining object contributes its group count plus one, plus the
groups still pending for the current object. -/
def genMeasure (fetch : Nat → ObjData) (s : GenState) : Nat :=
  (s.objIds.map (fun oid => (fetch oid).imageUrls.length + 1)).sum +
    (match s.objImageUrls with
     | none => 0
     | some l => l.length)

/-- Repeatedly call `__next__` (up to `fuel` times), collecting the yielded
(group, photometry) pairs until the first exhaustion signal. -/
def genRunFuel (fetch : Nat → ObjData) : Nat → GenState →
    List (ImageUrlGroup × List PhotRecord)
  | 0, _ => []
  | fuel + 1, s =>
      match genNext fetch s with
      | none => []
      | some (item, s') => item :: genRunFuel fetch fuel s'

/-! ### FITS image extraction (`ImageLocation.fits_data`) -/

/-- A pixel value of a numpy float array: `none` models NaN.  Infinite
values are not modelled, so `np.isfinite` coincides with `Option.isSome`
and `np.nanpercentile` ranges over exactly the `some` values. -/
abbrev Px := Option ℚ

/-- An n-dimensional numpy array as stored in an HDU: its shape and its
flattened (row-major) values. -/
structure NdArray where
  shape : List Nat
  vals : List Px
  deriving DecidableEq, Repr

/-- `arr.ndim`. -/
def NdArray.ndim (a : NdArray) : Nat := a.shape.length

/-- `np.squeeze`: remove all axes of extent 1 (the flattened values are
unchanged). -/
def NdArray.squeeze (a : NdArray) : NdArray :=
  ⟨a.shape.filter (fun d => d ≠ 1), a.vals⟩

/-- One HDU of a FITS file: `hdu.data`, which may be absent. -/
structure Hdu where
  data : Option NdArray
  deriving DecidableEq, Repr

/-- The Python exceptions that `ImageLocation.fits_data` can raise:
`KeyError` from `self.urls[self.IMAGE_KEY]` on a missing label, and the
`ValueError("No 2D image data found in FITS file for key ...")` decode
error when no HDU holds 2-D data. -/
inductive FitsErr where
  | keyError (label : String)
  | noImageData (label : String)
  deriving DecidableEq, Repr

/-- The `for hdu in hdul` scan of `fits_data`: skip HDUs with no data or
fewer than 2 dimensions; squeeze; return the first squeezed 2-D array;
otherwise raise the `ValueError` naming the image key. -/
def scanHdus (key : String) : List Hdu → Except FitsErr NdArray
  | [] => .error (.noImageData key)
  | h :: rest =>
      match h.data with
      | none => scanHdus key rest
      | some d =>
          if d.ndim < 2 then scanHdus key rest
          else if d.squeeze.ndim = 2 then .ok d.squeeze
          else scanHdus key rest

/-- `ImageLocation.fits_data` for a renderer with image label `key`
(`key` is the subclass's `IMAGE_KEY`: "Science", "Template" or
"Difference").  `store` models `fits.open`, mapping a URL to the list of
HDUs of the file behind it.  `self.urls[self.IMAGE_KEY]` on a dict
without the key raises `KeyError(key)` before any FITS access. -/
def fits_data (key : String) (urls : List (String × String))
    (store : String → List Hdu) : Except FitsErr NdArray :=
  match urls.lookup key with
  | none => .error (.keyError key)
  | some url => scanHdus key (store url)

/-! ### Percentile display bounds (`ImageLocation.plot`) -/

/-- Linear interpolation of a sorted value list at fractional position
`p`: with `i = ⌊p⌋` and `g = p - i`, the value `vs[i] + g (vs[i+1] -
vs[i])` (reading `vs[i+1]` as `vs[i]` when `i + 1` is out of range). -/
def interpAt (vs : List ℚ) (p : ℚ) : ℚ :=
  let i := (⌊p⌋).toNat
  let g := p - (i : ℚ)
  vs.getD i 0 + g * (vs.getD (i + 1) (vs.getD i 0) - vs.getD i 0)

/-- `np.nanpercentile(vals, q)` with the default linear interpolation:
sort the non-NaN values `vs` and interpolate at position
`pos = q (n-1) / 100`.  Meaningful for a nonempty list and
`0 ≤ q ≤ 100`. -/
def percentile (l : List ℚ) (q : ℚ) : ℚ :=
  let vs := List.insertionSort (fun a b => a ≤ b) l
  interpAt vs (q * ((vs.length : ℚ) - 1) / 100)

/-- The finite (non-NaN) values of a 2-D image, in row-major order. -/
def finiteVals (m : List (List Px)) : List ℚ :=
  m.flatten.filterMap id

/-- The display-bound computation of `ImageLocation.plot`:
`finite = np.isfinite(image_data); if finite.any(): vmin, vmax =
np.nanpercentile(image_data, (1, 99)); else: vmin, vmax = None, None`.
`none` models the fall-back to matplotlib's default auto-scaling. -/
def plotBounds (m : List (List Px)) : Option (ℚ × ℚ) :=
  if finiteVals m = [] then none
  else some (percentile (finiteVals m) 1, percentile (finiteVals m) 99)

/-! ### Light-curve JSON payload (`JSONLocation.generate`) -/

/-- The three parallel per-band lists built by the `defaultdict` loop of
`JSONLocation.generate` (`lcs[band]["midpointMjdTai"]` etc.). -/
structure Lc where
  midpointMjdTai : List ℚ
  psfFlux : List ℚ
  psfFluxErr : List ℚ
  deriving DecidableEq, Repr

/-- One iteration of the loop body `lcs[p["band"]][...].append(...)`:
append the record's fields to its band's bucket, creating the bucket at
the end when the band is new (Python dicts keep keys in insertion
order). -/
def addToLcs (lcs : List (String × Lc)) (p : PhotRecord) : List (String × Lc) :=
  if (lcs.lookup p.band).isSome then
    lcs.map (fun bl =>
      if bl.1 = p.band then
        (bl.1, ⟨bl.2.midpointMjdTai ++ [p.midpointMjdTai],
                bl.2.psfFlux ++ [p.psfFlux],
                bl.2.psfFluxErr ++ [p.psfFluxErr]⟩)
      else bl)
  else
    lcs ++ [(p.band, ⟨[p.midpointMjdTai], [p.psfFlux], [p.psfFluxErr]⟩)]

/-- The whole `for p in self.photometry` loop: per-band buckets in band
first-appearance order. -/
def buildLcs (ps : List PhotRecord) : List (String × Lc) :=
  ps.foldl addToLcs []

/-- The `labels` argument of `generate`: either a single (non-list-like)
label, replicated once per series, or an explicit list. -/
inductive LabelsArg where
  | scalar (s : String)
  | list (l : List String)
  deriving DecidableEq, Repr

/-- `JSONLocation.GLYPHS`: the two predefined (color, glyph) pairs. -/
def GLYPHS : List (String × String) :=
  [("white", "circle"), ("red", "square")]

/-- The default `labels="Lightcurve"` argument. -/
def defaultLabels : LabelsArg := .scalar "Lightcurve"

/-- `seriesOptions` of one series of the JSON document. -/
structure SeriesOptions where
  color : String
  glyph : String
  label : String
  deriving DecidableEq, Repr

/-- One element of the `"data"` list of the JSON document: `seriesData`
is the list of `{x, y}` pairs. -/
structure Series where
  seriesData : List (ℚ × ℚ)
  seriesOptions : SeriesOptions
  deriving DecidableEq, Repr

/-- `itertools.cycle(glyphs)` as the stream it denotes: element `i` is
`glyphs[i % len(glyphs)]` (only used for nonempty `glyphs`). -/
def cycleGet (glyphs : List (String × String)) (i : Nat) : String × String :=
  glyphs.getD (i % glyphs.length) ("", "")

/-- `JSONLocation.generate`, up to JSON serialization: `json.dumps` /
`json.loads` is the identity on this finite document, so the payload is
modelled as the `"data"` list itself.  Mirrors the source: build `lcs`,
replicate a scalar `labels`, and `zip(lcs, labels, cycle(glyphs))` —
the zip is empty when `glyphs` is empty (`cycle(())` yields nothing),
and is otherwise cut to `min (len lcs) (len labels)`. -/
def JSONLocation_generate (ps : List PhotRecord) (labels : LabelsArg)
    (glyphs : List (String × String)) : List Series :=
  let lcs := (buildLcs ps).map (fun bl => bl.2)
  let labelsList :=
    match labels with
    | .scalar s => List.replicate lcs.length s
    | .list l => l
  if glyphs.isEmpty then []
  else
    (lcs.zip labelsList).enum.map (fun il =>
      { seriesData := il.2.1.midpointMjdTai.zip il.2.1.psfFlux,
        seriesOptions :=
          { color := (cycleGet glyphs il.1).1,
            glyph := (cycleGet glyphs il.1).2,
            label := il.2.2 } })

/-- The bands of `ps` in first-appearance order (the key order of the
`defaultdict` built by `generate`). -/
def bandsInOrder (ps : List PhotRecord) : List String :=
  ps.foldl (fun acc p => if p.band ∈ acc then acc else acc ++ [p.band]) []

/-- The per-band bucket the `defaultdict` loop is expected to build for
band `b`: the fields of the records with that band, in insertion
order. -/
def lcOf (ps : List PhotRecord) (b : String) : Lc :=
  ⟨(ps.filter (fun p => p.band = b)).map (fun p => p.midpointMjdTai),
   (ps.filter (fun p => p.band = b)).map (fun p => p.psfFlux),
   (ps.filter (fun p => p.band = b)).map (fun p => p.psfFluxErr)⟩

/-! ### Subject assembly (`LSSTSubjectGenerator.generate`) -/

/-- The list comprehension
`[g(urls, photometry).as_file() for g in self.media_generators]`: run the
renderers left to right; the first raising renderer aborts the whole
comprehension with its exception. -/
def renderEach
    (renderers : List (ImageUrlGroup → List PhotRecord → Except String (String × String)))
    (urls : ImageUrlGroup) (photometry : List PhotRecord) :
    Except String (List (String × String)) :=
  match renderers with
  | [] => .ok []
  | g :: rest =>
      match g urls photometry with
      | .error e => .error e
      | .ok pm =>
          match renderEach rest urls photometry with
          | .error e => .error e
          | .ok pms => .ok (pm :: pms)

/-- `LSSTSubjectGenerator.generate`: run each configured media generator
in order, then append every (payload, MIME) pair to the subject via
`add_location`.  A renderer is modelled by its `as_file` outcome on the
given inputs; if the comprehension raises, no `Subject` is created and
no location is added.  On success the bundle lists the (payload, MIME)
pairs in configured order. -/
def LSSTSubjectGenerator_generate
    (renderers : List (ImageUrlGroup → List PhotRecord → Except String (String × String)))
    (urls : ImageUrlGroup) (photometry : List PhotRecord) :
    Except String (List (String × String)) :=
  renderEach renderers urls photometry

/-! ### `network_retry` (`client.py`) -/

/-- The outcome of one attempt of the wrapped callable `f`: a normal
return, an exception of one of the caught classes
(`ProxyError`, `ConnectionError`, `PanoptesAPIException`), or any other
exception. -/
inductive Attempt (α ε : Type) where
  | ok (v : α)
  | transient (e : ε)
  | fatal (e : ε)
  deriving DecidableEq, Repr

/-- The `for _ in range(10)` loop of `network_retry`, unrolled from
attempt index `i` with `rem` iterations left and `final_e` the last
caught transient exception.  Each caught retry adds `time.sleep(5)`
seconds, accumulated in the returned total.  When the loop ends,
`raise final_e` if one was caught; otherwise the function falls off the
end (returns Python `None`, modelled `.ok none`). -/
def networkRetryLoop {α ε : Type} (f : Nat → Attempt α ε) :
    Nat → Nat → Option ε → Except ε (Option α) × Nat
  | _, 0, finalE =>
      (match finalE with
       | some e => .error e
       | none => .ok none, 0)
  | i, rem + 1, _ =>
      match f i with
      | .ok v => (.ok (some v), 0)
      | .transient e =>
          let r := networkRetryLoop f (i + 1) rem (some e)
          (r.1, r.2 + 5)
      | .fatal e => (.error e, 0)

/-- `network_retry(f, *args, **kwargs)`: result plus total seconds slept. -/
def network_retry {α ε : Type} (f : Nat → Attempt α ε) :
    Except ε (Option α) × Nat :=
  networkRetryLoop f 0 10 none

/-! ### Resource scoping (`ImageLocation.as_file`, patched
`Subject.add_location`) -/

/-- `ImageLocation.as_file` viewed through the count of open matplotlib
figures.  `fig = self.plot()` opens one figure; `fig.savefig(...)` has
outcome `savefig` (`.ok png` or an exception); `pyplot.close(fig)` is the
next statement, NOT protected by `try/finally`.  Returns the call's
outcome and the resulting open-figure count. -/
def ImageLocation_as_file (savefig : Except String String)
    (openFigs : Nat) : Except String (String × String) × Nat :=
  let opened := openFigs + 1
  match savefig with
  | .error e => (.error e, opened)
  | .ok png => (.ok (png, "image/png"), opened - 1)

/-- The kinds of `location` argument `add_location` accepts: a dict of
remote URLs, a path string (opened with `open(location, "rb")`), or an
already-open file object. -/
inductive LocationArg where
  | dict
  | path
  | fileObj
  deriving DecidableEq, Repr

/-- The patched `Subject.add_location` (`client.py`) viewed through the
count of open file handles.  The dict branch returns before any file is
touched; the path branch opens a handle; both then run
`f.read()` + MIME detection (outcome `readDetect`) inside `try` with
`f.close()` in `finally`, so the handle is closed on success and on
raise alike. -/
def Subject_add_location (loc : LocationArg)
    (readDetect : Except String Unit) (openFiles : Nat) :
    Except String Unit × Nat :=
  match loc with
  | .dict => (.ok (), openFiles)
  | .path =>
      let opened := openFiles + 1
      (match readDetect with
       | .ok _ => (.ok (), opened - 1)
       | .error e => (.error e, opened - 1))
  | .fileObj =>
      (match readDetect with
       | .ok _ => (.ok (), openFiles - 1)
       | .error e => (.error e, openFiles - 1))

/-- Whether an attempt outcome is one of the exception classes caught by
`network_retry`. -/
def Attempt.isTransient {α ε : Type} : Attempt α ε → Bool
  | .transient _ => true
  | _ => false

/-- The sequence the spec expects the iterator to yield: for each object
in input order, its image-url groups in order, each paired with the
photometry records matching its `diaSourceId`. -/
def expectedYield (fetch : Nat → ObjData) (objIds : List Nat) :
    List (ImageUrlGroup × List PhotRecord) :=
  (objIds.map (fun oid => (fetch oid).imageUrls.map
    (fun g => (g, photometryFor (fetch oid).diaSourcesList g.diaSourceId)))).flatten

/-! ### Concrete example inputs used by witnesses and counterexamples -/

/-- A data source where object 0 has no image-url groups and object 1 has
one. -/
def exFetchEmptyFirst : Nat → ObjData := fun oid =>
  if oid = 0 then ⟨[], []⟩ else ⟨[⟨7, []⟩], []⟩

/-- A data source where object 0 has two image-url groups (diaSourceIds 1
and 2, the second with no matching photometry) and object 1 has one
(diaSourceId 3). -/
def exFetchTwoObjs : Nat → ObjData := fun oid =>
  if oid = 0 then ⟨[⟨1, []⟩, ⟨2, []⟩], [⟨1, "g", 10, 100, 1⟩, ⟨1, "r", 11, 200, 2⟩]⟩
  else ⟨[⟨3, []⟩], [⟨3, "g", 12, 110, 1⟩]⟩

/-- An image-url group carrying Science and Difference URLs but no
"Template" key. -/
def exUrlsNoTemplate : List (String × String) :=
  [("Science", "su"), ("Difference", "du")]

/-- A FITS store where every URL resolves to a file with one HDU holding
a 2 × 2 image. -/
def exStore : String → List Hdu := fun _ =>
  [⟨some ⟨[2, 2], [some 0, some 1, some 2, some 3]⟩⟩]

/-- Four photometry records over three bands (g, r, i) with two g-band
rows, in time order. -/
def exPhotometry : List PhotRecord :=
  [⟨1, "g", 10, 100, 1⟩, ⟨1, "r", 11, 200, 2⟩, ⟨1, "g", 12, 110, 1⟩,
   ⟨1, "i", 13, 300, 3⟩]

/-- A 1 × 101 image whose finite values are one 0 and one hundred 5s: the
1st and 99th percentiles coincide although the values are not all
equal. -/
def exOutlierRow : List (List Px) :=
  [((0 : ℚ) :: List.replicate 100 (5 : ℚ)).map some]

/-- A callable that raises a transient exception on attempts 0–2 and
returns 7 on attempt 3. -/
def exRetryOk : Nat → Attempt Nat String := fun i =>
  if i < 3 then .transient "proxy error" else .ok 7

/-- A callable that raises a transient exception on every attempt,
a different one each time. -/
def exRetryAllTransient : Nat → Attempt Nat String := fun i =>
  .transient (toString i)

/-- A callable that raises transient exceptions on attempts 0–1 and a
non-caught exception on attempt 2. -/
def exRetryFatal : Nat → Attempt Nat String := fun i =>
  if i < 2 then .transient "proxy error" else .fatal "type error"

/-- A renderer whose `as_file` succeeds with a fixed payload. -/
def exRendererOk : ImageUrlGroup → List PhotRecord → Except String (String × String) :=
  fun _ _ => .ok ("png-bytes", "image/png")

/-- A renderer whose `as_file` raises. -/
def exRendererBad : ImageUrlGroup → List PhotRecord → Except String (String × String) :=
  fun _ _ => .error "no 2d image data"

/-- A second succeeding renderer with a distinct payload. -/
def exRendererOk2 : ImageUrlGroup → List PhotRecord → Except String (String × String) :=
  fun _ _ => .ok ("json-bytes", "application/json")

/-- An iterator state whose next image-url group (diaSourceId 5) matches
none of the current object's photometry records. -/
def exStateOrphan : GenState :=
  ⟨[], some [⟨5, []⟩], [⟨1, "g", 10, 100, 1⟩, ⟨2, "r", 11, 200, 2⟩]⟩

/-! ## Helper lemmas -/

theorem isTransient_iff {α ε : Type} (a : Attempt α ε) :
    a.isTransient = true ↔ ∃ e, a = .transient e := by
  cases a <;> simp [Attempt.isTransient]

theorem networkRetryLoop_step_transient {α ε : Type} (f : Nat → Attempt α ε)
    (i rem : Nat) (fE : Option ε) (e : ε) (he : f i = .transient e) :
    networkRetryLoop f i (rem + 1) fE =
      ((networkRetryLoop f (i + 1) rem (some e)).1,
       (networkRetryLoop f (i + 1) rem (some e)).2 + 5) := by
  simp [networkRetryLoop, he]

theorem networkRetryLoop_ok {α ε : Type} (f : Nat → Attempt α ε) :
    ∀ rem i k fE v, k < rem →
      (∀ j, j < k → (f (i + j)).isTransient = true) →
      f (i + k) = .ok v →
      networkRetryLoop f i rem fE = (.ok (some v), 5 * k) := by
  intro rem
  induction rem with
  | zero => intro i k fE v hk _ _; exact absurd hk (by omega)
  | succ rem ih =>
      intro i k fE v hk htr hok
      match k with
      | 0 =>
          simp only [Nat.add_zero] at hok
          simp [networkRetryLoop, hok]
      | k + 1 =>
          have h0 : (f i).isTransient = true := by
            have := htr 0 (by omega); simpa using this
          obtain ⟨e, he⟩ := (isTransient_iff _).mp h0
          have hrec := ih (i + 1) k (some e) v (by omega)
            (fun j hj => by
              have := htr (j + 1) (by omega)
              simpa [Nat.add_assoc, Nat.add_comm 1 j] using this)
            (by simpa [Nat.add_assoc, Nat.add_comm 1 k] using hok)
          rw [networkRetryLoop_step_transient f i rem fE e he, hrec]
          simp only [Prod.mk.injEq]
          exact ⟨trivial, by omega⟩

theorem networkRetryLoop_fatal {α ε : Type} (f : Nat → Attempt α ε) :
    ∀ rem i k fE e, k < rem →
      (∀ j, j < k → (f (i + j)).isTransient = true) →
      f (i + k) = .fatal e →
      networkRetryLoop f i rem fE = (.error e, 5 * k) := by
  intro rem
  induction rem with
  | zero => intro i k fE e hk _ _; exact absurd hk (by omega)
  | succ rem ih =>
      intro i k fE e hk htr hfat
      match k with
      | 0 =>
          simp only [Nat.add_zero] at hfat
          simp [networkRetryLoop, hfat]
      | k + 1 =>
          have h0 : (f i).isTransient = true := by
            have := htr 0 (by omega); simpa using this
          obtain ⟨e0, he0⟩ := (isTransient_iff _).mp h0
          have hrec := ih (i + 1) k (some e0) e (by omega)
            (fun j hj => by
              have := htr (j + 1) (by omega)
              simpa [Nat.add_assoc, Nat.add_comm 1 j] using this)
            (by simpa [Nat.add_assoc, Nat.add_comm 1 k] using hfat)
          rw [networkRetryLoop_step_transient f i rem fE e0 he0, hrec]
          simp only [Prod.mk.injEq]
          exact ⟨trivial, by omega⟩

theorem networkRetryLoop_allTransient {α ε : Type} (f : Nat → Attempt α ε) :
    ∀ rem i fE e, 1 ≤ rem →
      (∀ j, j < rem → (f (i + j)).isTransient = true) →
      f (i + (rem - 1)) = .transient e →
      networkRetryLoop f i rem fE = (.error e, 5 * rem) := by
  intro rem
  induction rem with
  | zero => intro i fE e h1 _ _; exact absurd h1 (by omega)
  | succ rem ih =>
      intro i fE e _ htr hlast
      have h0 : (f i).isTransient = true := by
        have := htr 0 (by omega); simpa using this
      obtain ⟨e0, he0⟩ := (isTransient_iff _).mp h0
      match rem with
      | 0 =>
          have hlast0 : f i = .transient e := by simpa using hlast
          rw [hlast0] at he0
          cases he0
          rw [networkRetryLoop_step_transient f i 0 fE e hlast0]
          rfl
      | rem + 1 =>
          have hrec := ih (i + 1) (some e0) e (by omega)
            (fun j hj => by
              have := htr (j + 1) (by omega)
              simpa [Nat.add_assoc, Nat.add_comm 1 j] using this)
            (by
              have harith : i + 1 + (rem + 1 - 1) = i + (rem + 1 + 1 - 1) := by
                omega
              rw [harith]; exact hlast)
          rw [networkRetryLoop_step_transient f i (rem + 1) fE e0 he0, hrec]
          simp only [Prod.mk.injEq]
          exact ⟨trivial, by omega⟩

theorem renderEach_ok_iff_forall2
    (u : ImageUrlGroup) (p : List PhotRecord) :
    ∀ (rs : List (ImageUrlGroup → List PhotRecord → Except String (String × String)))
      (out : List (String × String)),
      renderEach rs u p = .ok out ↔
        List.Forall₂ (fun r pm => r u p = .ok pm) rs out := by
  intro rs
  induction rs with
  | nil =>
      intro out
      constructor
      · intro h
        cases h
        exact List.Forall₂.nil
      · intro h
        cases h
        rfl
  | cons r rs ih =>
      intro out
      constructor
      · intro h
        cases hr : r u p with
        | error e => rw [renderEach, hr] at h; cases h
        | ok pm =>
            cases hrest : renderEach rs u p with
            | error e => rw [renderEach, hr, hrest] at h; cases h
            | ok pms =>
                rw [renderEach, hr, hrest] at h
                cases h
                exact List.Forall₂.cons hr ((ih pms).mp hrest)
      · intro h
        cases h with
        | cons hr hF =>
            rw [renderEach, hr, (ih _).mpr hF]

theorem renderEach_error_first
    (u : ImageUrlGroup) (p : List PhotRecord) :
    ∀ (rs1 : List (ImageUrlGroup → List PhotRecord → Except String (String × String)))
      (r : ImageUrlGroup → List PhotRecord → Except String (String × String))
      (rs2 : List (ImageUrlGroup → List PhotRecord → Except String (String × String)))
      (e : String),
      (∀ x ∈ rs1, ∃ v, x u p = .ok v) → r u p = .error e →
      renderEach (rs1 ++ r :: rs2) u p = .error e := by
  intro rs1
  induction rs1 with
  | nil =>
      intro r rs2 e _ hre
      rw [List.nil_append, renderEach, hre]
  | cons x rs1 ih =>
      intro r rs2 e hok hre
      obtain ⟨v, hv⟩ := hok x (by simp)
      rw [List.cons_append, renderEach, hv,
        ih r rs2 e (fun y hy => hok y (by simp [hy])) hre]

theorem renderEach_error_of_mem_error
    (u : ImageUrlGroup) (p : List PhotRecord) :
    ∀ (rs : List (ImageUrlGroup → List PhotRecord → Except String (String × String)))
      (r : ImageUrlGroup → List PhotRecord → Except String (String × String))
      (e : String), r ∈ rs → r u p = .error e →
      ∃ e2, renderEach rs u p = .error e2 := by
  intro rs
  induction rs with
  | nil => intro r e hr _; cases hr
  | cons x rs ih =>
      intro r e hr hre
      cases hx : x u p with
      | error e0 =>
          refine ⟨e0, ?_⟩
          rw [renderEach, hx]
      | ok pm =>
          rcases List.mem_cons.mp hr with h | h
          · subst h; rw [hx] at hre; cases hre
          · obtain ⟨e2, he2⟩ := ih r e h hre
            refine ⟨e2, ?_⟩
            rw [renderEach, hx, he2]

theorem genRunFuel_succ (fetch : Nat → ObjData) (fuel : Nat) (s : GenState) :
    genRunFuel fetch (fuel + 1) s =
      match genNext fetch s with
      | none => []
      | some (item, s') => item :: genRunFuel fetch fuel s' := rfl

theorem genRunFuel_eq_expected (fetch : Nat → ObjData) :
    ∀ fuel s, genMeasure fetch s ≤ fuel →
      (∀ oid ∈ s.objIds, (fetch oid).imageUrls ≠ []) →
      genRunFuel fetch fuel s =
        (match s.objImageUrls with
         | none => []
         | some l =>
             l.map (fun g => (g, photometryFor s.objPhotometry g.diaSourceId))) ++
        expectedYield fetch s.objIds := by
  intro fuel
  induction fuel with
  | zero =>
      intro s hm _
      obtain ⟨ids, inner, phot⟩ := s
      match ids, inner with
      | [], none => rfl
      | [], some l =>
          have hl : l = [] := by
            simp only [genMeasure, List.map_nil, List.sum_nil, Nat.zero_add,
              Nat.le_zero] at hm
            exact List.length_eq_zero.mp hm
          subst hl
          rfl
      | oid :: ids2, inner =>
          exfalso
          simp only [genMeasure, List.map_cons, List.sum_cons] at hm
          omega
  | succ fuel ih =>
      intro s hm hne
      obtain ⟨ids, inner, phot⟩ := s
      match inner with
      | some (g :: rest) =>
          rw [genRunFuel_succ]
          simp only [genNext]
          have hm2 : genMeasure fetch ⟨ids, some rest, phot⟩ ≤ fuel := by
            simp only [genMeasure, List.length_cons] at hm ⊢
            omega
          rw [ih ⟨ids, some rest, phot⟩ hm2 hne]
          simp
      | some [] =>
          match ids with
          | [] => rfl
          | oid :: ids2 =>
              have hne0 : (fetch oid).imageUrls ≠ [] :=
                hne oid (List.mem_cons_self oid ids2)
              match hg : (fetch oid).imageUrls with
              | [] => exact absurd hg hne0
              | g :: rest =>
                  rw [genRunFuel_succ]
                  simp only [genNext, hg]
                  have hm2 : genMeasure fetch
                      ⟨ids2, some rest, (fetch oid).diaSourcesList⟩ ≤ fuel := by
                    simp only [genMeasure, List.map_cons, List.sum_cons, hg,
                      List.length_cons, List.length_nil] at hm ⊢
                    omega
                  rw [ih ⟨ids2, some rest, (fetch oid).diaSourcesList⟩ hm2
                    (fun o ho => hne o (List.mem_cons_of_mem oid ho))]
                  simp [expectedYield, hg]
      | none =>
          match ids with
          | [] => rfl
          | oid :: ids2 =>
              have hne0 : (fetch oid).imageUrls ≠ [] :=
                hne oid (List.mem_cons_self oid ids2)
              match hg : (fetch oid).imageUrls with
              | [] => exact absurd hg hne0
              | g :: rest =>
                  rw [genRunFuel_succ]
                  simp only [genNext, hg]
                  have hm2 : genMeasure fetch
                      ⟨ids2, some rest, (fetch oid).diaSourcesList⟩ ≤ fuel := by
                    simp only [genMeasure, List.map_cons, List.sum_cons, hg,
                      List.length_cons] at hm ⊢
                    omega
                  rw [ih ⟨ids2, some rest, (fetch oid).diaSourcesList⟩ hm2
                    (fun o ho => hne o (List.mem_cons_of_mem oid ho))]
                  simp [expectedYield, hg]

/-! ## Claims -/

/-- C1 (amended): provided every supplied object has at least one
ImageUrlGroup, repeatedly calling `__next__` yields exactly
`sum(N_i)` (group, photometry) pairs before signalling exhaustion,
ordered first by object position and then by within-object group order.
(When some object has zero groups the unguarded second
`next(self.obj_image_urls)` raises `StopIteration` there, so iteration
ends early — see the counterexample.) -/
theorem iterator_yields_all (fetch : Nat → ObjData) (objIds : List Nat)
    (fuel : Nat) (hfuel : genMeasure fetch ⟨objIds, none, []⟩ ≤ fuel)
    (hne : ∀ oid ∈ objIds, (fetch oid).imageUrls ≠ []) :
    genRunFuel fetch fuel ⟨objIds, none, []⟩ = expectedYield fetch objIds ∧
    (genRunFuel fetch fuel ⟨objIds, none, []⟩).length =
      (objIds.map (fun oid => (fetch oid).imageUrls.length)).sum := by
  have h := genRunFuel_eq_expected fetch fuel ⟨objIds, none, []⟩ hfuel hne
  simp only [List.nil_append] at h
  refine ⟨h, ?_⟩
  rw [h]
  simp [expectedYield, List.length_flatten, List.map_map, Function.comp_def]

/-- C1 counterexample: with object 0 supplying zero ImageUrlGroups and
object 1 supplying one, the iterator signals exhaustion immediately and
yields 0 bundles although `sum(N_i) = 1`. -/
theorem iterator_drops_after_empty_object :
    genRunFuel exFetchEmptyFirst 10 ⟨[0, 1], none, []⟩ = [] ∧
    genMeasure exFetchEmptyFirst ⟨[0, 1], none, []⟩ ≤ 10 ∧
    (([0, 1] : List Nat).map
      (fun oid => (exFetchEmptyFirst oid).imageUrls.length)).sum = 1 := by
  refine ⟨rfl, by decide, rfl⟩

/-- C1 witness: two objects with two and one groups yield exactly three
pairs in (object, within-object) order. -/
theorem iterator_yields_all_witness :
    genRunFuel exFetchTwoObjs 10 ⟨[0, 1], none, []⟩ =
      expectedYield exFetchTwoObjs [0, 1] ∧
    (genRunFuel exFetchTwoObjs 10 ⟨[0, 1], none, []⟩).length = 3 := by
  have h := iterator_yields_all exFetchTwoObjs [0, 1] 10 (by decide)
    (by decide)
  exact ⟨h.1, by rw [h.2]; rfl⟩

/-- C3: `network_retry(f, args)` attempts `f` up to 10 times: every
attempt that raises one of the caught transient exceptions sleeps 5
seconds and retries; a non-caught exception propagates immediately; a
successful attempt's result is returned; if all 10 attempts raise
transient exceptions the last one is re-raised. -/
theorem network_retry_spec {α ε : Type} (f : Nat → Attempt α ε) :
    (∀ k v, k < 10 → (∀ i, i < k → (f i).isTransient = true) →
      f k = .ok v → network_retry f = (.ok (some v), 5 * k)) ∧
    (∀ k e, k < 10 → (∀ i, i < k → (f i).isTransient = true) →
      f k = .fatal e → network_retry f = (.error e, 5 * k)) ∧
    (∀ e, (∀ i, i < 10 → (f i).isTransient = true) →
      f 9 = .transient e → network_retry f = (.error e, 50)) := by
  refine ⟨?_, ?_, ?_⟩
  · intro k v hk htr hok
    exact networkRetryLoop_ok f 10 0 k none v hk (by simpa using htr)
      (by simpa using hok)
  · intro k e hk htr hfat
    exact networkRetryLoop_fatal f 10 0 k none e hk (by simpa using htr)
      (by simpa using hfat)
  · intro e htr hlast
    have := networkRetryLoop_allTransient f 10 0 none e (by omega)
      (by simpa using htr) (by simpa using hlast)
    simpa using this

/-- C3 witness: concrete runs through each branch. -/
theorem network_retry_spec_witness :
    network_retry exRetryOk = (.ok (some 7), 15) ∧
    network_retry exRetryAllTransient = (.error "9", 50) ∧
    network_retry exRetryFatal = (.error "type error", 10) := by
  refine ⟨?_, ?_, ?_⟩
  · have := (network_retry_spec exRetryOk).1 3 7 (by omega) (by decide) (by decide)
    simpa using this
  · have := (network_retry_spec exRetryAllTransient).2.2 "9" (by decide) (by decide)
    simpa using this
  · have := (network_retry_spec exRetryFatal).2.1 2 "type error" (by omega)
      (by decide) (by decide)
    simpa using this

/-- C6: for every 2-D image with zero finite values the percentile
computation is skipped and the display bounds fall back to the library
default (`vmin`/`vmax` unset, modelled `none`); nothing is raised. -/
theorem plotBounds_no_finite (m : List (List Px)) (h : finiteVals m = []) :
    plotBounds m = none := by
  simp [plotBounds, h]

/-- C6 witness: an all-NaN 1 × 2 image. -/
theorem plotBounds_no_finite_witness :
    plotBounds [[(none : Px), none]] = none :=
  plotBounds_no_finite [[(none : Px), none]] rfl

/-- C8: subject assembly is atomic per bundle: `generate` succeeds with a
bundle exactly when every configured renderer succeeds, and the bundle
pairs renderers with their (payload, MIME) outputs in configured order;
if any renderer raises, `generate` produces an error (no partial
bundle), and the error of the first failing renderer is the one
propagated. -/
theorem subject_assembly_atomic
    (rs : List (ImageUrlGroup → List PhotRecord → Except String (String × String)))
    (u : ImageUrlGroup) (p : List PhotRecord) :
    (∀ out, LSSTSubjectGenerator_generate rs u p = .ok out ↔
      List.Forall₂ (fun r pm => r u p = .ok pm) rs out) ∧
    (∀ r e, r ∈ rs → r u p = .error e →
      ∃ e2, LSSTSubjectGenerator_generate rs u p = .error e2) ∧
    (∀ rs1 r rs2 e, rs = rs1 ++ r :: rs2 →
      (∀ x ∈ rs1, ∃ v, x u p = .ok v) → r u p = .error e →
      LSSTSubjectGenerator_generate rs u p = .error e) := by
  refine ⟨?_, ?_, ?_⟩
  · intro out
    exact renderEach_ok_iff_forall2 u p rs out
  · intro r e hm he
    exact renderEach_error_of_mem_error u p rs r e hm he
  · intro rs1 r rs2 e hsplit hok he
    subst hsplit
    exact renderEach_error_first u p rs1 r rs2 e hok he

/-- C8 witness: two succeeding renderers produce the ordered bundle; a
failing middle renderer aborts with its error. -/
theorem subject_assembly_atomic_witness :
    LSSTSubjectGenerator_generate [exRendererOk, exRendererOk2] ⟨1, []⟩ [] =
      .ok [("png-bytes", "image/png"), ("json-bytes", "application/json")] ∧
    LSSTSubjectGenerator_generate [exRendererOk, exRendererBad, exRendererOk2]
      ⟨1, []⟩ [] = .error "no 2d image data" := by
  constructor
  · exact ((subject_assembly_atomic [exRendererOk, exRendererOk2] ⟨1, []⟩ []).1 _).mpr
      (List.Forall₂.cons rfl (List.Forall₂.cons rfl List.Forall₂.nil))
  · exact (subject_assembly_atomic [exRendererOk, exRendererBad, exRendererOk2]
      ⟨1, []⟩ []).2.2 [exRendererOk] exRendererBad [exRendererOk2]
      "no 2d image data" rfl (fun x hx => by
        simp only [List.mem_singleton] at hx
        exact ⟨("png-bytes", "image/png"), by rw [hx]; rfl⟩) rfl

/-- C9 counterexample: when `fig.savefig` raises, `pyplot.close(fig)` is
never executed (no `try/finally` in `as_file`), so the open-figure count
grows from 0 to 1 while the error propagates. -/
theorem as_file_leaks_on_error :
    ImageLocation_as_file (.error "encode failed") 0 =
      (.error "encode failed", 1) ∧ (1 : Nat) ≠ 0 := by
  exact ⟨rfl, by omega⟩

/-- C9 amended: on the success path `as_file` closes its figure (count
unchanged); when `savefig` raises, the figure is NOT closed (count grows
by one); the patched `add_location` does close its handle on both the
success and the raise path. -/
theorem as_file_close_accounting (png e : String) (rd : Except String Unit)
    (n : Nat) :
    (ImageLocation_as_file (.ok png) n).2 = n ∧
    (ImageLocation_as_file (.error e) n).2 = n + 1 ∧
    (Subject_add_location .path rd n).2 = n ∧
    (Subject_add_location .dict rd n).2 = n := by
  refine ⟨rfl, rfl, ?_, rfl⟩
  cases rd <;> rfl

/-- C10: an image-url group whose `diaSourceId` matches no photometry
record of the current object does not make `__next__` fail: the
`defaultdict` lookup yields an empty record list and the bundle is built
from it; the JSON renderer on an empty record list produces an empty
`"data"` list. -/
theorem next_orphan_group_ok (fetch : Nat → ObjData) (s : GenState)
    (g : ImageUrlGroup) (rest : List ImageUrlGroup)
    (h1 : s.objImageUrls = some (g :: rest))
    (h2 : ∀ r ∈ s.objPhotometry, r.diaSourceId ≠ g.diaSourceId) :
    genNext fetch s = some ((g, []), { s with objImageUrls := some rest }) ∧
    JSONLocation_generate [] defaultLabels GLYPHS = [] := by
  constructor
  · have hfil : photometryFor s.objPhotometry g.diaSourceId = [] := by
      simp only [photometryFor]
      rw [List.filter_eq_nil_iff]
      intro r hr
      simpa using h2 r hr
    obtain ⟨ids, inner, phot⟩ := s
    simp only at h1
    subst h1
    simp only [genNext]
    simp only at hfil
    rw [hfil]
  · rfl

/-- C10 witness: a concrete state whose next group (diaSourceId 5) has no
matching photometry. -/
theorem next_orphan_group_ok_witness :
    genNext exFetchEmptyFirst exStateOrphan =
      some ((⟨5, []⟩, []), { exStateOrphan with objImageUrls := some [] }) ∧
    JSONLocation_generate [] defaultLabels GLYPHS = [] :=
  next_orphan_group_ok exFetchEmptyFirst exStateOrphan ⟨5, []⟩ [] rfl
    (by decide)

/-- C2 counterexample: on a group lacking the "Template" key the Template
renderer fails with `KeyError("Template")` from the dict lookup
`self.urls[self.IMAGE_KEY]`, not with the typed decode error
(`ValueError` "No 2D image data found ...") the claim names — the FITS
decode step is never reached; Science and Difference still succeed. -/
theorem template_missing_key_not_decode_error :
    fits_data "Template" exUrlsNoTemplate exStore =
      .error (.keyError "Template") ∧
    fits_data "Template" exUrlsNoTemplate exStore ≠
      .error (.noImageData "Template") ∧
    fits_data "Science" exUrlsNoTemplate exStore =
      .ok ⟨[2, 2], [some 0, some 1, some 2, some 3]⟩ ∧
    fits_data "Difference" exUrlsNoTemplate exStore =
      .ok ⟨[2, 2], [some 0, some 1, some 2, some 3]⟩ := by
  refine ⟨rfl, ?_, rfl, rfl⟩
  intro h
  exact FitsErr.noConfusion (Except.error.inj h)

/-- C2 (amended): for every ImageUrlGroup lacking the "Template" key the
Template renderer fails with a key-lookup error (`KeyError`) naming
"Template", and every renderer's outcome depends only on its own label's
entry (so Science and Difference succeed or fail independently of the
Template entry). -/
theorem template_missing_key_behavior (urls : List (String × String))
    (store : String → List Hdu) (hT : urls.lookup "Template" = none) :
    fits_data "Template" urls store = .error (.keyError "Template") ∧
    (∀ key (urls2 : List (String × String)),
      urls.lookup key = urls2.lookup key →
      fits_data key urls store = fits_data key urls2 store) := by
  constructor
  · simp only [fits_data, hT]
  · intro key urls2 h
    simp only [fits_data, h]

/-- C2 witness: the concrete Science/Difference-only group. -/
theorem template_missing_key_behavior_witness :
    fits_data "Template" exUrlsNoTemplate exStore =
      .error (.keyError "Template") ∧
    fits_data "Science" exUrlsNoTemplate exStore =
      fits_data "Science" [("Science", "su")] exStore := by
  have h := template_missing_key_behavior exUrlsNoTemplate exStore rfl
  exact ⟨h.1, h.2 "Science" [("Science", "su")] rfl⟩

theorem bandsInOrder_append_singleton (qs : List PhotRecord) (p : PhotRecord) :
    bandsInOrder (qs ++ [p]) =
      if p.band ∈ bandsInOrder qs then bandsInOrder qs
      else bandsInOrder qs ++ [p.band] := by
  simp [bandsInOrder, List.foldl_append]

theorem mem_bandsInOrder (b : String) (ps : List PhotRecord) :
    b ∈ bandsInOrder ps ↔ b ∈ ps.map (fun p => p.band) := by
  induction ps using List.reverseRecOn with
  | nil => simp [bandsInOrder]
  | append_singleton qs p ih =>
      rw [bandsInOrder_append_singleton]
      by_cases hmem : p.band ∈ bandsInOrder qs
      · rw [if_pos hmem]
        simp only [List.map_append, List.map_cons, List.map_nil, List.mem_append,
          List.mem_singleton]
        constructor
        · intro h; exact Or.inl (ih.mp h)
        · rintro (h | h)
          · exact ih.mpr h
          · subst h; exact hmem
      · rw [if_neg hmem]
        simp [ih]

theorem bandsInOrder_nodup (ps : List PhotRecord) : (bandsInOrder ps).Nodup := by
  induction ps using List.reverseRecOn with
  | nil => simp [bandsInOrder]
  | append_singleton qs p ih =>
      rw [bandsInOrder_append_singleton]
      by_cases hmem : p.band ∈ bandsInOrder qs
      · rw [if_pos hmem]; exact ih
      · rw [if_neg hmem]
        simp [List.nodup_append, ih, hmem]

theorem filter_band_append_singleton (qs : List PhotRecord) (p : PhotRecord)
    (b : String) :
    (qs ++ [p]).filter (fun r => r.band = b) =
      qs.filter (fun r => r.band = b) ++ if p.band = b then [p] else [] := by
  rw [List.filter_append]
  congr 1
  by_cases h : p.band = b <;> simp [h]

theorem lcOf_append_singleton (qs : List PhotRecord) (p : PhotRecord)
    (b : String) :
    lcOf (qs ++ [p]) b =
      if p.band = b then
        ⟨(lcOf qs b).midpointMjdTai ++ [p.midpointMjdTai],
         (lcOf qs b).psfFlux ++ [p.psfFlux],
         (lcOf qs b).psfFluxErr ++ [p.psfFluxErr]⟩
      else lcOf qs b := by
  by_cases h : p.band = b <;>
    simp [lcOf, filter_band_append_singleton, h]

theorem lookup_map_key {β : Type} (f : String → β) :
    ∀ (bs : List String) (b : String),
      (bs.map (fun x => (x, f x))).lookup b =
        if b ∈ bs then some (f b) else none := by
  intro bs
  induction bs with
  | nil => intro b; simp
  | cons c cs ih =>
      intro b
      by_cases hbc : b = c
      · subst hbc
        simp [List.lookup]
      · have hbeq : (b == c) = false := beq_eq_false_iff_ne.mpr hbc
        simp [List.lookup, hbeq, hbc, ih b, List.mem_cons]

theorem buildLcs_append_singleton (qs : List PhotRecord) (p : PhotRecord) :
    buildLcs (qs ++ [p]) = addToLcs (buildLcs qs) p := by
  simp [buildLcs, List.foldl_append]

theorem buildLcs_eq (ps : List PhotRecord) :
    buildLcs ps = (bandsInOrder ps).map (fun b => (b, lcOf ps b)) := by
  induction ps using List.reverseRecOn with
  | nil => rfl
  | append_singleton qs p ih =>
      rw [buildLcs_append_singleton, ih, bandsInOrder_append_singleton]
      by_cases hmem : p.band ∈ bandsInOrder qs
      · rw [if_pos hmem]
        have hlk : ((bandsInOrder qs).map (fun b => (b, lcOf qs b))).lookup p.band
            = some (lcOf qs p.band) := by
          rw [lookup_map_key, if_pos hmem]
        unfold addToLcs
        rw [hlk]
        simp only [Option.isSome_some, if_true, List.map_map]
        apply List.map_congr_left
        intro b hb
        simp only [Function.comp_apply]
        by_cases hb2 : b = p.band
        · subst hb2
          rw [lcOf_append_singleton, if_pos rfl]
          simp
        · have hne : ¬(p.band = b) := fun h => hb2 h.symm
          rw [lcOf_append_singleton, if_neg hne]
          simp [hb2]
      · rw [if_neg hmem]
        have hlk : ((bandsInOrder qs).map (fun b => (b, lcOf qs b))).lookup p.band
            = none := by
          rw [lookup_map_key, if_neg hmem]
        unfold addToLcs
        rw [hlk]
        simp only [Option.isSome_none, Bool.false_eq_true, if_false, List.map_append]
        congr 1
        · apply List.map_congr_left
          intro b hb
          have hne : p.band ≠ b := fun h => hmem (h ▸ hb)
          rw [lcOf_append_singleton, if_neg hne]
        · have hfil : qs.filter (fun r => r.band = p.band) = [] := by
            rw [List.filter_eq_nil_iff]
            intro r hr hband
            exact hmem ((mem_bandsInOrder p.band qs).mpr
              (by
                simp only [decide_eq_true_eq] at hband
                exact hband ▸ List.mem_map_of_mem (fun p => p.band) hr))
          simp [lcOf, lcOf_append_singleton, filter_band_append_singleton, hfil]

theorem zip_replicate_self {α β : Type} (a : β) :
    ∀ l : List α, l.zip (List.replicate l.length a) = l.map (fun x => (x, a)) := by
  intro l
  induction l with
  | nil => rfl
  | cons x xs ih => simp [List.replicate_succ, ih]

theorem JSONLocation_generate_eq (ps : List PhotRecord) :
    JSONLocation_generate ps defaultLabels GLYPHS =
      (bandsInOrder ps).enum.map (fun ib =>
        { seriesData := (ps.filter (fun p => p.band = ib.2)).map
            (fun p => (p.midpointMjdTai, p.psfFlux)),
          seriesOptions :=
            { color := (cycleGet GLYPHS ib.1).1,
              glyph := (cycleGet GLYPHS ib.1).2,
              label := "Lightcurve" } }) := by
  simp only [JSONLocation_generate, defaultLabels, buildLcs_eq, List.map_map]
  rw [if_neg (by decide)]
  rw [List.length_map, show ((fun bl => bl.2) ∘ fun b => (b, lcOf ps b)) =
    (fun b => lcOf ps b) from rfl]
  rw [show List.replicate (bandsInOrder ps).length "Lightcurve" =
    List.replicate ((bandsInOrder ps).map (fun b => lcOf ps b)).length
      "Lightcurve" from by rw [List.length_map]]
  rw [zip_replicate_self, List.map_map, List.enum_map, List.map_map]
  apply List.map_congr_left
  intro ib _
  simp only [Prod.map, Function.comp_apply, id_eq, lcOf]
  congr 1
  exact List.zip_map' (fun p : PhotRecord => p.midpointMjdTai)
    (fun p : PhotRecord => p.psfFlux) _

/-- C4: serializing N photometry records across B distinct bands produces
exactly B series (the bands in first-appearance order, without
duplicates, covering exactly the bands present); series i's `seriesData`
is the (timestamp, flux) pairs of band i's records in original insertion
order — hence each series' length is that band's record count and the
parsed document reproduces the (x, y) pairs in the original time
order. -/
theorem json_generate_roundtrip (ps : List PhotRecord) :
    (JSONLocation_generate ps defaultLabels GLYPHS).length =
      (bandsInOrder ps).length ∧
    (bandsInOrder ps).Nodup ∧
    (∀ b, b ∈ bandsInOrder ps ↔ b ∈ ps.map (fun p => p.band)) ∧
    (∀ i (hi : i < (JSONLocation_generate ps defaultLabels GLYPHS).length)
       (hb : i < (bandsInOrder ps).length),
      ((JSONLocation_generate ps defaultLabels GLYPHS).get ⟨i, hi⟩).seriesData =
        (ps.filter (fun p => p.band = (bandsInOrder ps).get ⟨i, hb⟩)).map
          (fun p => (p.midpointMjdTai, p.psfFlux))) := by
  refine ⟨?_, bandsInOrder_nodup ps, fun b => mem_bandsInOrder b ps, ?_⟩
  · rw [JSONLocation_generate_eq, List.length_map, List.enum_length]
  · intro i hi hb
    simp only [List.get_eq_getElem, JSONLocation_generate_eq, List.getElem_map,
      List.getElem_enum]

/-- C4 witness: four records over bands g, r, g, i give three series whose
data preserve insertion order per band. -/
theorem json_generate_roundtrip_witness :
    (JSONLocation_generate exPhotometry defaultLabels GLYPHS).length = 3 ∧
    (bandsInOrder exPhotometry).Nodup ∧
    ("g" ∈ bandsInOrder exPhotometry ↔
      "g" ∈ exPhotometry.map (fun p => p.band)) ∧
    ((JSONLocation_generate exPhotometry defaultLabels GLYPHS).get
      ⟨0, by decide⟩).seriesData = [(10, 100), (12, 110)] := by
  have h := json_generate_roundtrip exPhotometry
  refine ⟨by rw [h.1]; rfl, h.2.1, h.2.2.1 "g", ?_⟩
  rw [h.2.2.2 0 (by decide) (by decide)]
  decide

/-- C7: the (color, glyph) style of series i is the predefined style at
index `i mod 2` (deterministic cyclic assignment over the two predefined
pairs), so in particular series 2 reuses series 0's style exactly. -/
theorem style_cycling (ps : List PhotRecord) :
    (∀ i (hi : i < (JSONLocation_generate ps defaultLabels GLYPHS).length),
      ((JSONLocation_generate ps defaultLabels GLYPHS).get ⟨i, hi⟩).seriesOptions =
        ⟨(GLYPHS.getD (i % 2) ("", "")).1, (GLYPHS.getD (i % 2) ("", "")).2,
         "Lightcurve"⟩) ∧
    (∀ (h2 : 2 < (JSONLocation_generate ps defaultLabels GLYPHS).length)
       (h0 : 0 < (JSONLocation_generate ps defaultLabels GLYPHS).length),
      ((JSONLocation_generate ps defaultLabels GLYPHS).get ⟨2, h2⟩).seriesOptions =
        ((JSONLocation_generate ps defaultLabels GLYPHS).get ⟨0, h0⟩).seriesOptions) := by
  have hstyle : ∀ i (hi : i < (JSONLocation_generate ps defaultLabels GLYPHS).length),
      ((JSONLocation_generate ps defaultLabels GLYPHS).get ⟨i, hi⟩).seriesOptions =
        ⟨(GLYPHS.getD (i % 2) ("", "")).1, (GLYPHS.getD (i % 2) ("", "")).2,
         "Lightcurve"⟩ := by
    intro i hi
    simp only [List.get_eq_getElem, JSONLocation_generate_eq, List.getElem_map,
      List.getElem_enum]
    rfl
  refine ⟨hstyle, fun h2 h0 => ?_⟩
  rw [hstyle 2 h2, hstyle 0 h0]

/-- C7 witness: with three bands, series 2 wears series 0's (white,
circle) style again. -/
theorem style_cycling_witness :
    ((JSONLocation_generate exPhotometry defaultLabels GLYPHS).get
      ⟨2, by decide⟩).seriesOptions =
      ((JSONLocation_generate exPhotometry defaultLabels GLYPHS).get
        ⟨0, by decide⟩).seriesOptions ∧
    ((JSONLocation_generate exPhotometry defaultLabels GLYPHS).get
      ⟨0, by decide⟩).seriesOptions.color = "white" := by
  refine ⟨(style_cycling exPhotometry).2 (by decide) (by decide), ?_⟩
  rw [(style_cycling exPhotometry).1 0 (by decide)]
  rfl

theorem getD_sorted_mono {vs : List ℚ}
    (hs : List.Sorted (fun a b => a ≤ b) vs) (c d : ℚ) {a b : ℕ}
    (hab : a ≤ b) (hb : b < vs.length) : vs.getD a c ≤ vs.getD b d := by
  have ha : a < vs.length := lt_of_le_of_lt hab hb
  rw [List.getD_eq_getElem vs c ha, List.getD_eq_getElem vs d hb]
  rcases Nat.eq_or_lt_of_le hab with h | h
  · subst h; exact le_refl _
  · exact List.Sorted.rel_get_of_lt hs
      (show (⟨a, ha⟩ : Fin vs.length) < ⟨b, hb⟩ from h)

theorem cast_floor_toNat {p : ℚ} (hp0 : 0 ≤ p) :
    (((⌊p⌋).toNat : ℕ) : ℚ) = ((⌊p⌋ : ℤ) : ℚ) := by
  exact_mod_cast Int.toNat_of_nonneg (Int.floor_nonneg.mpr hp0)

theorem floor_le_length_sub_one {n : ℕ} {p : ℚ} (hpn : p ≤ (n : ℚ) - 1) :
    ⌊p⌋ ≤ (n : ℤ) - 1 := by
  have h := Int.floor_le_floor hpn
  rwa [show ((n : ℚ) - 1) = ((n : ℚ) - ((1 : ℤ) : ℚ)) from by norm_num,
    Int.floor_sub_int, Int.floor_natCast] at h

theorem getD_floor_le_interpAt {vs : List ℚ}
    (hs : List.Sorted (fun a b => a ≤ b) vs) (_hne : vs ≠ []) {p : ℚ}
    (hp0 : 0 ≤ p) (_hpn : p ≤ (vs.length : ℚ) - 1) :
    vs.getD (⌊p⌋).toNat 0 ≤ interpAt vs p := by
  have hcast := cast_floor_toNat hp0
  have hg0 : (0 : ℚ) ≤ p - ((⌊p⌋).toNat : ℚ) := by
    have := Int.floor_le p
    rw [hcast]; linarith
  simp only [interpAt]
  by_cases hcase : (⌊p⌋).toNat + 1 < vs.length
  · have hle := getD_sorted_mono hs 0 (vs.getD (⌊p⌋).toNat 0)
      (Nat.le_succ (⌊p⌋).toNat) hcase
    have hprod : 0 ≤ (p - ((⌊p⌋).toNat : ℚ)) *
        (vs.getD ((⌊p⌋).toNat + 1) (vs.getD (⌊p⌋).toNat 0) -
          vs.getD (⌊p⌋).toNat 0) :=
      mul_nonneg hg0 (sub_nonneg.mpr hle)
    linarith
  · rw [List.getD_eq_default vs (vs.getD (⌊p⌋).toNat 0)
      (show vs.length ≤ (⌊p⌋).toNat + 1 by omega)]
    simp

theorem interpAt_le_getD_next {vs : List ℚ}
    (hs : List.Sorted (fun a b => a ≤ b) vs) (hne : vs ≠ []) {p : ℚ}
    (hp0 : 0 ≤ p) (hpn : p ≤ (vs.length : ℚ) - 1) :
    interpAt vs p ≤ vs.getD (min ((⌊p⌋).toNat + 1) (vs.length - 1)) 0 := by
  have hlen : 0 < vs.length := List.length_pos.mpr hne
  have hcast := cast_floor_toNat hp0
  have hfl := floor_le_length_sub_one hpn
  have hg0 : (0 : ℚ) ≤ p - ((⌊p⌋).toNat : ℚ) := by
    have := Int.floor_le p
    rw [hcast]; linarith
  have hg1 : p - ((⌊p⌋).toNat : ℚ) < 1 := by
    have := Int.lt_floor_add_one p
    rw [hcast]; push_cast at this ⊢; linarith
  by_cases hcase : (⌊p⌋).toNat + 1 ≤ vs.length - 1
  · rw [min_eq_left hcase]
    have hlt : (⌊p⌋).toNat + 1 < vs.length := by omega
    have hle := getD_sorted_mono hs 0 (vs.getD (⌊p⌋).toNat 0)
      (Nat.le_succ (⌊p⌋).toNat) hlt
    simp only [interpAt]
    rw [List.getD_eq_getElem vs (vs.getD (⌊p⌋).toNat 0) hlt,
      List.getD_eq_getElem vs 0 hlt]
    rw [List.getD_eq_getElem vs (vs.getD (⌊p⌋).toNat 0) hlt] at hle
    have hkey : 0 ≤ (1 - (p - ((⌊p⌋).toNat : ℚ))) *
        (vs.getD (⌊p⌋).toNat 0 - vs.getD (⌊p⌋).toNat 0 +
          (vs.get ⟨(⌊p⌋).toNat + 1, hlt⟩ - vs.getD (⌊p⌋).toNat 0)) := by
      apply mul_nonneg (by linarith)
      have : vs.getD (⌊p⌋).toNat 0 ≤ vs.get ⟨(⌊p⌋).toNat + 1, hlt⟩ := by
        simpa [List.get_eq_getElem] using hle
      linarith
    have hgoal : vs.getD (⌊p⌋).toNat 0 +
        (p - ((⌊p⌋).toNat : ℚ)) *
          (vs.get ⟨(⌊p⌋).toNat + 1, hlt⟩ - vs.getD (⌊p⌋).toNat 0) ≤
        vs.get ⟨(⌊p⌋).toNat + 1, hlt⟩ := by nlinarith [hkey]
    simpa [List.get_eq_getElem] using hgoal
  · have hieq : (⌊p⌋).toNat = vs.length - 1 := by omega
    rw [min_eq_right (by omega), ← hieq]
    have hpi : p - ((⌊p⌋).toNat : ℚ) = 0 := by
      have hup : p ≤ ((⌊p⌋).toNat : ℚ) := by
        have hcast2 : ((vs.length - 1 : ℕ) : ℚ) = (vs.length : ℚ) - 1 := by
          have : 1 ≤ vs.length := hlen
          push_cast [this]; ring
        rw [hieq, hcast2]; exact hpn
      linarith
    simp only [interpAt]
    rw [hpi, zero_mul, add_zero]

theorem interpAt_mono {vs : List ℚ}
    (hs : List.Sorted (fun a b => a ≤ b) vs) (hne : vs ≠ []) {q r : ℚ}
    (hq0 : 0 ≤ q) (hqr : q ≤ r) (hrn : r ≤ (vs.length : ℚ) - 1) :
    interpAt vs q ≤ interpAt vs r := by
  have hr0 : 0 ≤ r := le_trans hq0 hqr
  have hq1n : q ≤ (vs.length : ℚ) - 1 := le_trans hqr hrn
  have hii : (⌊q⌋).toNat ≤ (⌊r⌋).toNat :=
    Int.toNat_le_toNat (Int.floor_le_floor hqr)
  rcases Nat.eq_or_lt_of_le hii with heq | hlt
  · simp only [interpAt, ← heq]
    have hD : 0 ≤ vs.getD ((⌊q⌋).toNat + 1) (vs.getD (⌊q⌋).toNat 0) -
        vs.getD (⌊q⌋).toNat 0 := by
      by_cases hcase : (⌊q⌋).toNat + 1 < vs.length
      · have := getD_sorted_mono hs 0 (vs.getD (⌊q⌋).toNat 0)
          (Nat.le_succ (⌊q⌋).toNat) hcase
        linarith
      · rw [List.getD_eq_default vs (vs.getD (⌊q⌋).toNat 0)
          (show vs.length ≤ (⌊q⌋).toNat + 1 by omega)]
        simp
    have hg12 : q - ((⌊q⌋).toNat : ℚ) ≤ r - ((⌊q⌋).toNat : ℚ) := by linarith
    have := mul_le_mul_of_nonneg_right hg12 hD
    linarith
  · have h1 := interpAt_le_getD_next hs hne hq0 hq1n
    have h2 := getD_floor_le_interpAt hs hne hr0 hrn
    have hlen : 0 < vs.length := List.length_pos.mpr hne
    have hfl2 := floor_le_length_sub_one hrn
    have h3 : vs.getD (min ((⌊q⌋).toNat + 1) (vs.length - 1)) 0 ≤
        vs.getD (⌊r⌋).toNat 0 := by
      apply getD_sorted_mono hs 0 0
      · omega
      · omega
    linarith

theorem percentile_one_le_ninetynine (l : List ℚ) (hl : l ≠ []) :
    percentile l 1 ≤ percentile l 99 := by
  simp only [percentile]
  have hlen : (List.insertionSort (fun a b => a ≤ b) l).length = l.length :=
    List.length_insertionSort _ l
  have hne : List.insertionSort (fun a b => a ≤ b) l ≠ [] := by
    intro h
    exact hl (List.length_eq_zero.mp (by rw [← hlen, h]; rfl))
  have hn1 : (1 : ℚ) ≤ ((List.insertionSort (fun a b => a ≤ b) l).length : ℚ) := by
    have : 0 < (List.insertionSort (fun a b => a ≤ b) l).length :=
      List.length_pos.mpr hne
    exact_mod_cast this
  apply interpAt_mono (List.sorted_insertionSort _ l) hne
  · have : (0 : ℚ) ≤ ((List.insertionSort (fun a b => a ≤ b) l).length : ℚ) - 1 := by
      linarith
    linarith
  · linarith
  · linarith

theorem finiteVals_exOutlierRow :
    finiteVals exOutlierRow = (0 : ℚ) :: List.replicate 100 (5 : ℚ) := by
  simp [finiteVals, exOutlierRow]

theorem sorted_exOutlierList :
    List.insertionSort (fun a b => a ≤ b)
        ((0 : ℚ) :: List.replicate 100 (5 : ℚ)) =
      (0 : ℚ) :: List.replicate 100 (5 : ℚ) := by
  apply List.Sorted.insertionSort_eq
  rw [List.sorted_cons]
  constructor
  · intro b hb
    rw [List.eq_of_mem_replicate hb]
    norm_num
  · exact (List.pairwise_replicate).mpr (Or.inr (le_refl 5))

theorem getD_exOutlierList {i : ℕ} (h1 : 1 ≤ i) (h2 : i ≤ 100) :
    ((0 : ℚ) :: List.replicate 100 (5 : ℚ)).getD i 0 = 5 := by
  match i, h1 with
  | j + 1, _ =>
      rw [List.getD_cons_succ]
      rw [List.getD_eq_getElem (List.replicate 100 (5 : ℚ)) 0
        (show j < (List.replicate 100 (5 : ℚ)).length by
          rw [List.length_replicate]; omega)]
      exact List.getElem_replicate (5 : ℚ) _

theorem percentile_exOutlier_one :
    percentile ((0 : ℚ) :: List.replicate 100 (5 : ℚ)) 1 = 5 := by
  simp only [percentile, sorted_exOutlierList]
  rw [show (1 : ℚ) * ((((0 : ℚ) :: List.replicate 100 (5 : ℚ)).length : ℚ) - 1)
      / 100 = 1 from by norm_num]
  simp only [interpAt]
  rw [show (⌊(1 : ℚ)⌋).toNat = 1 from rfl]
  rw [getD_exOutlierList (by norm_num) (by norm_num)]
  norm_num

theorem percentile_exOutlier_ninetynine :
    percentile ((0 : ℚ) :: List.replicate 100 (5 : ℚ)) 99 = 5 := by
  simp only [percentile, sorted_exOutlierList]
  rw [show (99 : ℚ) * ((((0 : ℚ) :: List.replicate 100 (5 : ℚ)).length : ℚ) - 1)
      / 100 = 99 from by norm_num]
  simp only [interpAt]
  rw [show (⌊(99 : ℚ)⌋).toNat = 99 from rfl]
  rw [getD_exOutlierList (by norm_num) (by norm_num)]
  norm_num

theorem plotBounds_exOutlierRow : plotBounds exOutlierRow = some (5, 5) := by
  simp only [plotBounds, finiteVals_exOutlierRow]
  rw [if_neg (List.cons_ne_nil 0 (List.replicate 100 5))]
  rw [percentile_exOutlier_one, percentile_exOutlier_ninetynine]

/-- C5 counterexample: a 1 × 101 image with one 0 and one hundred 5s has
not-all-equal finite values, yet the computed bounds are `(5, 5)` (both
the 1st and the 99th percentile interpolate inside the run of 5s), so
`vmin < vmax` fails. -/
theorem percentile_bounds_collapse_with_outlier :
    plotBounds exOutlierRow = some (5, 5) ∧
    (0 : ℚ) ∈ finiteVals exOutlierRow ∧
    (5 : ℚ) ∈ finiteVals exOutlierRow ∧
    (0 : ℚ) ≠ 5 := by
  refine ⟨plotBounds_exOutlierRow, ?_, ?_, by norm_num⟩
  · rw [finiteVals_exOutlierRow]
    exact List.mem_cons_self _ _
  · rw [finiteVals_exOutlierRow]
    exact List.mem_cons_of_mem _ (List.mem_replicate.mpr ⟨by norm_num, rfl⟩)

/-- C5 (amended): for every 2-D image with at least one finite value,
`(vmin, vmax)` is exactly the pair of 1st and 99th percentiles of the
finite values (so `vmin ≤ p1` and `vmax ≥ p99` hold with equality) and
`vmin ≤ vmax`; but `vmin < vmax` can fail even when the finite values
are not all equal. -/
theorem plot_bounds_are_percentiles (m : List (List Px))
    (hne : finiteVals m ≠ []) :
    plotBounds m = some (percentile (finiteVals m) 1,
      percentile (finiteVals m) 99) ∧
    percentile (finiteVals m) 1 ≤ percentile (finiteVals m) 99 := by
  exact ⟨by simp [plotBounds, hne], percentile_one_le_ninetynine _ hne⟩

/-- C5 witness: the outlier image has bounds equal to its two percentiles
(both 5) and `vmin ≤ vmax`. -/
theorem plot_bounds_are_percentiles_witness :
    plotBounds exOutlierRow = some (percentile (finiteVals exOutlierRow) 1,
      percentile (finiteVals exOutlierRow) 99) ∧
    percentile (finiteVals exOutlierRow) 1 ≤
      percentile (finiteVals exOutlierRow) 99 :=
  plot_bounds_are_percentiles exOutlierRow
    (by rw [finiteVals_exOutlierRow]; exact List.cons_ne_nil _ _)

end ZooniverseLsst
